import Mathlib

/-!
Shallow embedding of the episode-simulation and metrics-extraction core
(`src/ca/grid.py`, `src/ca/update.py`, `src/control/pid.py`,
`src/dynamics/actuator.py`, `src/dynamics/noise.py`,
`src/experiments/sim.py`, `src/analysis/metrics.py`).

Real numbers are modelled as rationals.  Pseudo-random draws are modelled
abstractly: a random generator is a stream `ℕ → ℚ` of source values; a call
`normal(mu, sigma)` consuming draw `z` yields `mu + sigma * z`, and a call
`uniform(lo, hi)` consuming draw `u` yields `lo + (hi - lo) * u` (with
`u ∈ [0,1]` as a hypothesis where needed).  The episode-owned generators
(`CAState.rng`, `Turbulence.rng`) and the process-global numpy generator
used by `step_ca` are three distinct streams, matching the source.
-/

namespace CAMasters

/-- Semantics of `np.clip(x, lo, hi)`: `max` with the lower bound, then `min`
with the upper bound. -/
def npClip (x lo hi : ℚ) : ℚ := min hi (max lo x)

/-- The eight Moore-neighborhood offsets in the order the source builds them
(`grid.py`: `di in (-1,0,1)`, `dj in (-1,0,1)`, skipping `(0,0)`). -/
def mooreOffsets : List (ℤ × ℤ) :=
  [(-1,-1), (-1,0), (-1,1), (0,-1), (0,1), (1,-1), (1,0), (1,1)]

/-- Symmetric ("symm") boundary reflection of index `k` into `[0, n)`, as used
by `convolve2d(..., boundary='symm')` for the one-cell padding a 3x3 kernel
needs: `-1` reflects to `0` and `n` reflects to `n-1`. -/
def symmRefl (n : ℕ) (k : ℤ) : ℤ :=
  if k < 0 then -k - 1 else if (n : ℤ) ≤ k then 2 * n - k - 1 else k

/-- Sum of the eight kernel taps of `convolve2d(x, NEIGH, mode='same',
boundary='symm')` at cell `(i, j)` (`update.py:_neighbor_mean`, numerator). -/
def convTapSum (h w : ℕ) (x : ℕ → ℕ → ℚ) (i j : ℕ) : ℚ :=
  (mooreOffsets.map (fun p =>
    x (symmRefl h ((i : ℤ) + p.1)).toNat (symmRefl w ((j : ℤ) + p.2)).toNat)).sum

/-- `update.py:_neighbor_mean`: tap sum divided by `max(c, 1)` where `c` is the
same convolution applied to an all-ones field. -/
def neighborMean (h w : ℕ) (x : ℕ → ℕ → ℚ) (i j : ℕ) : ℚ :=
  convTapSum h w x i j / max (convTapSum h w (fun _ _ => 1) i j) 1

/-- `grid.py:CAState.neighbors`: the in-bounds Moore neighbors of `(i, j)`,
skipping out-of-bounds positions. -/
def neighborsList (h w : ℕ) (i j : ℕ) : List (ℕ × ℕ) :=
  mooreOffsets.filterMap (fun p =>
    let ni := (i : ℤ) + p.1
    let nj := (j : ℤ) + p.2
    if 0 ≤ ni ∧ ni < (h : ℤ) ∧ 0 ≤ nj ∧ nj < (w : ℤ) then
      some (ni.toNat, nj.toNat)
    else none)

/-- Mean of a field over the naive neighbor enumeration of
`grid.py:CAState.neighbors` (sum over in-bounds neighbors divided by their
count). -/
def naiveNeighborMean (h w : ℕ) (x : ℕ → ℕ → ℚ) (i j : ℕ) : ℚ :=
  ((neighborsList h w i j).map (fun p => x p.1 p.2)).sum /
    ((neighborsList h w i j).length : ℚ)

/-- `grid.py:CAState`: a 2-D grid holding the `attitude`, `stability` and
`speed` fields, modelled as total functions read on `[0,h) × [0,w)`. -/
structure CAState where
  h : ℕ
  w : ℕ
  a : ℕ → ℕ → ℚ
  s : ℕ → ℕ → ℚ
  v : ℕ → ℕ → ℚ

/-- `grid.py:CAState.__init__`: `a ~ normal(0, 0.03)`, `s ~ uniform(0.6, 0.9)`,
`v ~ normal(1, 0.02)`, drawn sequentially from the episode grid stream `g`
(first `h*w` draws for `a`, next `h*w` for `s`, next `h*w` for `v`). -/
def CAState.init (h w : ℕ) (g : ℕ → ℚ) : CAState where
  h := h
  w := w
  a := fun i j => 0 + (3/100) * g (i * w + j)
  s := fun i j => 3/5 + (9/10 - 3/5) * g (h * w + (i * w + j))
  v := fun i j => 1 + (1/50) * g (2 * (h * w) + (i * w + j))

/-- Mean of a field over the whole grid (`np.ndarray.mean`). -/
def gridMean (h w : ℕ) (x : ℕ → ℕ → ℚ) : ℚ :=
  (((List.range h).map (fun i => ((List.range w).map (x i)).sum)).sum) /
    ((h * w : ℕ) : ℚ)

/-- `grid.py:CAState.mean_attitude`. -/
def CAState.meanAttitude (st : CAState) : ℚ := gridMean st.h st.w st.a

/-- `grid.py:CAState.mean_stability`. -/
def CAState.meanStability (st : CAState) : ℚ := gridMean st.h st.w st.s

/-- `grid.py:CAState.mean_speed`. -/
def CAState.meanSpeed (st : CAState) : ℚ := gridMean st.h st.w st.v

/-- `update.py:step_ca`: one CA update.  `gd` is the block of process-global
numpy draws consumed by `np.random.normal(0, 0.02 + 0.15*turb, size=(h,w))`
this step (draw `i*w + j` for cell `(i, j)`). -/
def step_ca (st : CAState) (ctrl_bias turb : ℚ) (gd : ℕ → ℚ) : CAState :=
  let la := neighborMean st.h st.w st.a
  let ls := neighborMean st.h st.w st.s
  let lv := neighborMean st.h st.w st.v
  let s_decay := 3/1000 + (3/100) * turb
  let s_recover := 3/250 + (3/200) * max 0 (1 - |ctrl_bias|)
  { st with
    a := fun i j =>
      (3/5) * st.a i j + (7/20) * la i j
        + (1/4 + (3/4) * ls i j) * ctrl_bias
        + (1/50 + (3/20) * turb) * gd (i * st.w + j)
    s := fun i j =>
      npClip ((1 - s_decay) * st.s i j + (1/20) * ls i j + s_recover) 0 1
    v := fun i j =>
      (9/10) * st.v i j + (1/10) * lv i j + (1/100) * (ls i j - 1/2) }

/-- `update.py:crash_condition` with its default thresholds
(`a_thresh = 6.0`, `s_thresh = 0.18`). -/
def crash_condition (st : CAState) : Bool :=
  if 6 < |st.meanAttitude| ∨ st.meanStability < 9/50 then true else false

/-- `pid.py:PID`: gains, output limits, integral accumulator, previous error
and anti-windup factor. -/
structure PID where
  kp : ℚ
  ki : ℚ
  kd : ℚ
  umin : ℚ
  umax : ℚ
  i : ℚ
  prev_e : ℚ
  antiwindup : ℚ

/-- `pid.py:PID.step`: accumulate the integral, form the PID output, clamp it
to `[umin, umax]` and scale the accumulator by the anti-windup factor when the
clamp engages.  Returns the output together with the updated state. -/
def PID.step (p : PID) (e dt : ℚ) : ℚ × PID :=
  let i1 := p.i + e * dt
  let d := (e - p.prev_e) / dt
  let u := p.kp * e + p.ki * i1 + p.kd * d
  if u > p.umax then
    (p.umax, { p with i := i1 * p.antiwindup, prev_e := e })
  else if u < p.umin then
    (p.umin, { p with i := i1 * p.antiwindup, prev_e := e })
  else
    (u, { p with i := i1, prev_e := e })

/-- `actuator.py:FirstOrderActuator`: lag constant, saturation bound, rate
limit and current internal output. -/
structure FirstOrderActuator where
  tau : ℚ
  umax : ℚ
  rate : ℚ
  u : ℚ

/-- `actuator.py:FirstOrderActuator.step`: clip the command to
`[-umax, umax]`, rate-limit the change of the internal state, apply the
first-order lag toward the clipped command, and return the internal state
clipped to `[-umax, umax]` (the internal state itself stays unclipped). -/
def FirstOrderActuator.step (a : FirstOrderActuator) (u_cmd dt : ℚ) :
    ℚ × FirstOrderActuator :=
  let c := npClip u_cmd (-a.umax) a.umax
  let du := npClip (c - a.u) (-(a.rate * dt)) (a.rate * dt)
  let u1 := a.u + du
  let u2 := u1 + (-u1 + c) * (dt / max a.tau (1/1000000))
  (npClip u2 (-a.umax) a.umax, { a with u := u2 })

/-- Modelled from the spec for the refinement comparison of the actuator
stage order: "(1) rate limiting — the per-step change is clamped to
`±rate·Δt`; (2) first-order lag toward the rate-limited commanded value with
time constant `τ`; (3) final saturation clamp to `[−umax, umax]`" — with no
saturation of the incoming command before the rate limit. -/
def specActuatorStep (a : FirstOrderActuator) (u_cmd dt : ℚ) :
    ℚ × FirstOrderActuator :=
  let du := npClip (u_cmd - a.u) (-(a.rate * dt)) (a.rate * dt)
  let u1 := a.u + du
  let u2 := u1 + (-u1 + u_cmd) * (dt / max a.tau (1/1000000))
  (npClip u2 (-a.umax) a.umax, { a with u := u2 })

/-- `noise.py:Turbulence`: mean-reverting disturbance state.  The embedding
specialises `dt = 1`, the default used by `sim.py:run` (which never passes a
different `dt`), so the Gaussian increment `normal(0, dt**0.5)` is a plain
standard-normal draw. -/
structure Turbulence where
  theta : ℚ
  sigma : ℚ
  x : ℚ

/-- `noise.py:Turbulence.step` with `dt = 1`: `x += theta*(0 - x) + sigma*dw*level`
where `dw` is the next draw of the turbulence stream. -/
def Turbulence.step (tb : Turbulence) (level draw : ℚ) : ℚ × Turbulence :=
  let x1 := tb.x + tb.theta * (0 - tb.x) * 1 + tb.sigma * draw * level
  (x1, { tb with x := x1 })

/-- One row of the episode log built by `sim.py:run` (the dict-of-lists `log`,
viewed row-wise: one entry of each of the nine lists per step). -/
structure StepRecord where
  t : ℕ
  attitude : ℚ
  stability : ℚ
  speed : ℚ
  u_cmd : ℚ
  u_eff : ℚ
  turb : ℚ
  crashed : Bool
  a_ref : ℚ
deriving DecidableEq

/-- Configuration parameters of `sim.py:run` other than the seed.  The seed
only selects the pseudo-random streams, which the embedding passes
explicitly. -/
structure SimCfg where
  T : ℕ
  kp : ℚ
  ki : ℚ
  kd : ℚ
  a_ref : ℚ
  pitch_up_at : ℕ
  pitch_up_delta : ℚ
  failure_window : Option (ℕ × ℕ)
  turb_sched : ℕ → ℚ
  grid_h : ℕ
  grid_w : ℕ

/-- The per-step mutable state of `sim.py:run`: grid, controller, actuator and
disturbance process. -/
structure SimState where
  ca : CAState
  pid : PID
  act : FirstOrderActuator
  tb : Turbulence

/-- Initial state of `sim.py:run`: `CAState(h, w, seed)` seeded from the grid
stream, `PID(kp, ki, kd, umin=-2, umax=2)` (so `antiwindup = 0.95`),
`FirstOrderActuator(tau=0.3, umax=2.0, rate=0.5)` and
`Turbulence(theta=0.3, sigma=0.2, seed)`. -/
def initSimState (cfg : SimCfg) (gridStream : ℕ → ℚ) : SimState where
  ca := CAState.init cfg.grid_h cfg.grid_w gridStream
  pid := { kp := cfg.kp, ki := cfg.ki, kd := cfg.kd, umin := -2, umax := 2,
           i := 0, prev_e := 0, antiwindup := 19/20 }
  act := { tau := 3/10, umax := 2, rate := 1/2, u := 0 }
  tb := { theta := 3/10, sigma := 1/5, x := 0 }

/-- One iteration of the loop body of `sim.py:run` at step `t`: reference with
one-time pitch-up impulse, error from the previous attitude, the
failure-window gain override (zero `ki`/`kd` for the step, restore them after,
keeping the mutated accumulator), controller, actuator, turbulence draw, plant
update and crash check.  `turbStream t` is the turbulence draw of step `t`;
`globStream` is the process-global numpy stream, of which the step consumes
draws `[t*h*w, (t+1)*h*w)`. -/
def simStep (cfg : SimCfg) (turbStream globStream : ℕ → ℚ) (t : ℕ)
    (st : SimState) : StepRecord × SimState :=
  let ref := cfg.a_ref + (if t = cfg.pitch_up_at then cfg.pitch_up_delta else 0)
  let e := ref - st.ca.meanAttitude
  let pidOut : ℚ × PID :=
    match cfg.failure_window with
    | some fw =>
        if fw.1 ≤ t ∧ t < fw.2 then
          let p0 := { st.pid with ki := 0, kd := 0 }
          let r := p0.step e 1
          (r.1, { r.2 with ki := st.pid.ki, kd := st.pid.kd })
        else st.pid.step e 1
    | none => st.pid.step e 1
  let u_cmd := pidOut.1
  let actOut := st.act.step u_cmd 1
  let u_eff := actOut.1
  let level := cfg.turb_sched t
  let tbOut := st.tb.step level (turbStream t)
  let noise := tbOut.1
  let ca1 := step_ca st.ca (u_eff + noise) level
    (fun k => globStream (t * (cfg.grid_h * cfg.grid_w) + k))
  let crashed := crash_condition ca1
  (⟨t, ca1.meanAttitude, ca1.meanStability, ca1.meanSpeed,
    u_cmd, u_eff, level, crashed, ref⟩,
   ⟨ca1, pidOut.2, actOut.2, tbOut.2⟩)

/-- The `for t in range(T)` loop of `sim.py:run` with its early `break`:
append the step record, and stop as soon as its `crashed` flag is true. -/
def runLoop (cfg : SimCfg) (turbStream globStream : ℕ → ℚ) :
    ℕ → ℕ → SimState → List StepRecord
  | 0, _, _ => []
  | fuel + 1, t, st =>
      let out := simStep cfg turbStream globStream t st
      if out.1.crashed then [out.1]
      else out.1 :: runLoop cfg turbStream globStream fuel (t + 1) out.2

/-- `sim.py:run`: build the initial state from the grid stream and run the
loop for up to `T` steps.  The three streams stand for `CAState`'s seeded
generator, `Turbulence`'s seeded generator and the process-global numpy
generator used inside `step_ca`. -/
def run (cfg : SimCfg) (gridStream turbStream globStream : ℕ → ℚ) :
    List StepRecord :=
  runLoop cfg turbStream globStream cfg.T 0 (initSimState cfg gridStream)

/-- `metrics.py`: the scalar episode summary. -/
structure EpisodeMetrics where
  overshoot : ℚ
  time_to_recover : ℚ
  stability_variance : ℚ
  control_effort : ℚ
  crash : Bool
deriving DecidableEq

/-- Maximum of a list (`np.max`); the empty case is never reached by
`metricsFromLog`, which fails first on an empty series. -/
def listMax : List ℚ → ℚ
  | [] => 0
  | x :: xs => xs.foldl max x

/-- Population variance (`np.var`): mean squared deviation from the mean. -/
def listVar (xs : List ℚ) : ℚ :=
  let n : ℚ := (xs.length : ℚ)
  let m := xs.sum / n
  ((xs.map (fun x => (x - m) ^ 2)).sum) / n

/-- Tracking error of one record (`df['attitude'] - df['a_ref']`). -/
def recErr (r : StepRecord) : ℚ := r.attitude - r.a_ref

/-- `metrics.py:metrics_from_log`: `overshoot = max |err|`;
`time_to_recover` = the `t` of the first record with `|err| < 0.05`, falling
back to the last recorded `t`; `stability_variance = var(stability)`;
`control_effort = sum |u_eff|`; `crash = any(crashed)`.  On the empty log the
source raises (`np.max` of an empty series), modelled as `none`. -/
def metrics_from_log : List StepRecord → Option EpisodeMetrics
  | [] => none
  | r0 :: rest =>
      let log := r0 :: rest
      let overshoot := listMax (log.map (fun r => |recErr r|))
      let ttr : ℚ :=
        match log.find? (fun r => |recErr r| < 1/20) with
        | some r => (r.t : ℚ)
        | none => ((log.getLastD r0).t : ℚ)
      some ⟨overshoot, ttr, listVar (log.map (fun r => r.stability)),
        (log.map (fun r => |r.u_eff|)).sum,
        log.any (fun r => r.crashed)⟩

/-- Modelled from the spec for the refinement comparison of the
`time_to_recover` rule: "find the earliest index `t` such that a contiguous
run of `min_hold` consecutive steps starting at `t` all have
`|error| < hysteresis`; return `t` as a step count, or `0.0` if the error
never exceeded `threshold` in the first place, or `0.0` if no such window
exists before the series ends". -/
def specTimeToRecover (threshold hysteresis : ℚ) (minHold : ℕ)
    (errs : List ℚ) : ℚ :=
  if errs.all (fun e => |e| ≤ threshold) then 0
  else
    match (List.range errs.length).find? (fun t =>
        decide (t + minHold ≤ errs.length) &&
        ((errs.drop t).take minHold).all (fun e => |e| < hysteresis)) with
    | some t => (t : ℚ)
    | none => 0

/-- Placeholder record used as the default of positional lookups in theorem
statements. -/
def dummyRec : StepRecord := ⟨0, 0, 0, 0, 0, 0, 0, false, 0⟩

/-- The all-zeros random stream (every abstract draw is `0`). -/
def zeroStream : ℕ → ℚ := fun _ => 0

/-- A small concrete configuration: horizon `1`, the `run_demo.py` baseline
gains `kp = 0.8`, `ki = 0.05`, `kd = 0.12`, reference `0`, pitch-up of `0.3`
at step `35`, no failure window, zero turbulence schedule, `1×1` grid. -/
def tinyCfg : SimCfg :=
  ⟨1, 4/5, 1/20, 3/25, 0, 35, 3/10, none, fun _ => 0, 1, 1⟩

/-- Iterate `PID.step` on a constant error `e` with `dt = 1` (the value used
by `sim.py:run`), keeping only the evolving controller state. -/
def pidIter (p : PID) (e : ℚ) : ℕ → PID
  | 0 => p
  | n + 1 => ((pidIter p e n).step e 1).2

/-- The next `PID.step` on error `e` (with `dt = 1`) saturates: its raw output
exceeds `umax` or falls below `umin`, so the output is clamped. -/
def pidSaturatedAt (p : PID) (e : ℚ) : Prop :=
  p.umax < p.kp * e + p.ki * (p.i + e * 1) + p.kd * ((e - p.prev_e) / 1) ∨
    p.kp * e + p.ki * (p.i + e * 1) + p.kd * ((e - p.prev_e) / 1) < p.umin

/-- Concrete pure-proportional controller used as the C7 witness: `kp = 1`,
`ki = kd = 0`, limits `±2`, zero initial accumulator, `antiwindup = 0.95`. -/
def pid7 : PID := ⟨1, 0, 0, -2, 2, 0, 0, 19/20⟩

/-- Concrete three-record log whose tracking error is constantly `1`
(attitude `1`, reference `0`; all other fields zero). -/
def c2log : List StepRecord :=
  [⟨0, 1, 0, 0, 0, 0, 0, false, 0⟩, ⟨1, 1, 0, 0, 0, 0, 0, false, 0⟩,
   ⟨2, 1, 0, 0, 0, 0, 0, false, 0⟩]

/-- Concrete two-record log whose tracking error is `1` then `0`. -/
def c2wlog : List StepRecord :=
  [⟨0, 1, 0, 0, 0, 0, 0, false, 0⟩, ⟨1, 0, 0, 0, 0, 0, 0, false, 0⟩]

/-- Indicator field holding `1` at the origin cell and `0` elsewhere. -/
def x9 : ℕ → ℕ → ℚ := fun i j => if i = 0 ∧ j = 0 then 1 else 0

/-- Bounds of `np.clip`: the result is between the bounds whenever
`lo ≤ hi`. -/
lemma npClip_bounds (x lo hi : ℚ) (hlh : lo ≤ hi) :
    lo ≤ npClip x lo hi ∧ npClip x lo hi ≤ hi := by
  unfold npClip
  constructor
  · exact le_min hlh (le_max_left lo x)
  · exact min_le_left hi _

/-- C1: the episode produced by `run` is not a function of `(seed, config)`
alone: with the seed-derived grid and turbulence streams and the whole
configuration held fixed, changing only the state of the process-global numpy
generator (which `step_ca` consumes through `np.random.normal`) changes the
recorded `EpisodeLog`, refuting bit-identical reproduction across independent
executions. -/
theorem c1_run_depends_on_global_rng_state :
    run tinyCfg zeroStream zeroStream zeroStream ≠
      run tinyCfg zeroStream zeroStream (fun _ => 1) := by
  norm_num [run, runLoop, simStep, initSimState, CAState.init, step_ca,
    crash_condition, CAState.meanAttitude, CAState.meanStability,
    CAState.meanSpeed, gridMean, neighborMean, convTapSum, mooreOffsets,
    symmRefl, npClip, PID.step, FirstOrderActuator.step, Turbulence.step,
    tinyCfg, zeroStream, List.range_succ]

/-- C4: `metrics_from_log` does not return a metrics record on the empty log:
`np.max` of the empty error series raises, modelled as `none`. -/
theorem c4_metrics_raises_on_empty_log : metrics_from_log [] = none := rfl

/-- C5: a non-positive horizon is not rejected: `run` with `T = 0` silently
returns the empty episode log (the `for t in range(T)` loop never executes and
no validation error is raised). -/
theorem c5_zero_horizon_yields_silent_empty_log :
    run { tinyCfg with T := 0 } zeroStream zeroStream zeroStream = [] := rfl

/-- Symmetric reflection is the identity on in-range indices. -/
lemma symmRefl_of_mem (n : ℕ) (k : ℤ) (h0 : 0 ≤ k) (hn : k < (n : ℤ)) :
    symmRefl n k = k := by
  unfold symmRefl
  split_ifs <;> omega

/-- A `filterMap` whose function succeeds on every element is a `map`. -/
lemma filterMap_all_some {α β : Type} (f : α → Option β) (g : α → β) :
    ∀ l : List α, (∀ a ∈ l, f a = some (g a)) → l.filterMap f = l.map g := by
  intro l
  induction l with
  | nil => intro _; rfl
  | cons a tl ih =>
      intro hall
      rw [List.filterMap_cons_some (hall a (List.mem_cons_self a tl)),
        List.map_cons, ih (fun b hb => hall b (List.mem_cons_of_mem a hb))]

/-- At an interior cell every Moore offset is in bounds, so the naive
enumeration lists all eight neighbors. -/
lemma neighborsList_interior (h w i j : ℕ) (hi0 : 0 < i) (hih : i + 1 < h)
    (hj0 : 0 < j) (hjw : j + 1 < w) :
    neighborsList h w i j =
      mooreOffsets.map
        (fun p => (((i : ℤ) + p.1).toNat, ((j : ℤ) + p.2).toNat)) := by
  apply filterMap_all_some
  intro p hp
  fin_cases hp <;>
    · dsimp only
      split
      · rfl
      · next hcond => exact absurd (by omega) hcond

/-- C9 counterexample: at the corner cell `(0,0)` of a `2×2` grid holding the
origin-indicator field, the mean over the naive in-bounds neighbor
enumeration is `0`, but the convolution with symmetric padding counts three
reflected copies of the center value and yields `3/8`, so the two
formulations are not numerically identical at boundary cells. -/
theorem c9_boundary_cell_counterexample :
    naiveNeighborMean 2 2 x9 0 0 ≠ neighborMean 2 2 x9 0 0 ∧
      naiveNeighborMean 2 2 x9 0 0 = 0 ∧ neighborMean 2 2 x9 0 0 = 3/8 := by
  refine ⟨?_, ?_, ?_⟩
  · norm_num [naiveNeighborMean, neighborsList, mooreOffsets, x9,
      List.filterMap_cons, List.filterMap_nil, neighborMean, convTapSum,
      symmRefl]
  · norm_num [naiveNeighborMean, neighborsList, mooreOffsets, x9,
      List.filterMap_cons, List.filterMap_nil]
  · norm_num [neighborMean, convTapSum, mooreOffsets, symmRefl, x9]

/-- C9 (amended): the naive per-cell enumeration mean and the convolution
mean agree at every interior cell (all eight Moore neighbors in bounds);
they differ in general at edge and corner cells. -/
theorem c9_interior_neighbor_mean_equivalence (h w : ℕ) (x : ℕ → ℕ → ℚ)
    (i j : ℕ) (hi0 : 0 < i) (hih : i + 1 < h) (hj0 : 0 < j)
    (hjw : j + 1 < w) :
    naiveNeighborMean h w x i j = neighborMean h w x i j := by
  have hlist := neighborsList_interior h w i j hi0 hih hj0 hjw
  rw [naiveNeighborMean, hlist, neighborMean]
  have hones : convTapSum h w (fun _ _ => 1) i j = 8 := by
    norm_num [convTapSum, mooreOffsets]
  rw [hones]
  have hx : convTapSum h w x i j =
      ((mooreOffsets.map
          (fun p => (((i : ℤ) + p.1).toNat, ((j : ℤ) + p.2).toNat))).map
        (fun p => x p.1 p.2)).sum := by
    simp only [convTapSum, mooreOffsets, List.map_map, Function.comp,
      List.map_cons, List.map_nil]
    rw [symmRefl_of_mem h ((i : ℤ) + -1) (by omega) (by omega),
      symmRefl_of_mem h ((i : ℤ) + 0) (by omega) (by omega),
      symmRefl_of_mem h ((i : ℤ) + 1) (by omega) (by omega),
      symmRefl_of_mem w ((j : ℤ) + -1) (by omega) (by omega),
      symmRefl_of_mem w ((j : ℤ) + 0) (by omega) (by omega),
      symmRefl_of_mem w ((j : ℤ) + 1) (by omega) (by omega)]
  rw [hx]
  norm_num [List.map_map, mooreOffsets, Function.comp]

/-- C9 witness: the interior equivalence at the center cell of a `3×3` grid
holding the field `x i j = i + j`. -/
theorem c9_interior_neighbor_mean_equivalence_witness :
    naiveNeighborMean 3 3 (fun i j => (i : ℚ) + j) 1 1 =
      neighborMean 3 3 (fun i j => (i : ℚ) + j) 1 1 :=
  c9_interior_neighbor_mean_equivalence 3 3 (fun i j => (i : ℚ) + j) 1 1
    (by norm_num) (by norm_num) (by norm_num) (by norm_num)

/-- If no element among the first `k` satisfies the predicate and the `k`-th
element does, then `find?` returns the `k`-th element. -/
lemma find?_of_prefix_all_neg {α : Type} (p : α → Bool) (d : α) :
    ∀ (l : List α) (k : ℕ), k < l.length →
      (l.take k).all (fun a => !p a) = true → p (l.getD k d) = true →
      l.find? p = some (l.getD k d) := by
  intro l
  induction l with
  | nil => intro k hk _ _; simp at hk
  | cons a tl ih =>
      intro k hk hall hp
      cases k with
      | zero =>
          simp only [List.getD_cons_zero] at hp ⊢
          exact List.find?_cons_of_pos _ hp
      | succ k =>
          simp only [List.take_succ_cons, List.all_cons, Bool.and_eq_true,
            Bool.not_eq_true'] at hall
          rw [List.getD_cons_succ] at hp ⊢
          rw [List.find?_cons_of_neg _ (by simp [hall.1])]
          exact ih k (by simpa using hk) hall.2 hp

/-- C2 counterexample: on the constant-error log `c2log` (error `1` at steps
`0`, `1`, `2`), the source's `time_to_recover` is the final step `2`, while
the claimed rule — with the repository's recovery parameters
`threshold = 0.03`, `hysteresis = 0.015`, `min_hold = 8` — yields `0.0`
(error exceeded the threshold and no `min_hold` window exists), so the two
disagree. -/
theorem c2_min_hold_hysteresis_counterexample :
    (metrics_from_log c2log).map (fun m => m.time_to_recover) = some 2 ∧
      specTimeToRecover (3/100) (3/200) 8 (c2log.map recErr) = 0 := by
  constructor
  · norm_num [metrics_from_log, c2log, recErr, listMax, listVar, List.find?]
  · norm_num [specTimeToRecover, c2log, recErr, List.range_succ, List.find?]

/-- C2 (amended): `metrics_from_log` computes `time_to_recover` with no hold
window, hysteresis band or trigger threshold: it is the `t` of the earliest
record whose error satisfies `|attitude - a_ref| < 0.05`, and the `t` of the
last record (not `0.0`) when no record satisfies it. -/
theorem c2_ttr_first_hit_or_last (log : List StepRecord) (m : EpisodeMetrics)
    (hm : metrics_from_log log = some m) :
    ((∀ r ∈ log, ¬(|recErr r| < 1/20)) →
        m.time_to_recover = ((log.getLastD dummyRec).t : ℚ)) ∧
      ∀ k, k < log.length →
        (log.take k).all (fun r => !(decide (|recErr r| < 1/20))) = true →
        |recErr (log.getD k dummyRec)| < 1/20 →
        m.time_to_recover = ((log.getD k dummyRec).t : ℚ) := by
  cases log with
  | nil => simp [metrics_from_log] at hm
  | cons r0 rest =>
      rw [metrics_from_log] at hm
      injection hm with hm
      subst hm
      constructor
      · intro hnone
        have hfind : (r0 :: rest).find? (fun r => decide (|recErr r| < 1/20))
            = none :=
          List.find?_eq_none.mpr (fun x hx => by simpa using hnone x hx)
        simp only [hfind]
        rw [List.getLastD_eq_getLast?, List.getLastD_eq_getLast?]
        cases hgl : (r0 :: rest).getLast? with
        | none => simp at hgl
        | some x => simp [hgl]
      · intro k hk hall hp
        have hfind := find?_of_prefix_all_neg
          (fun r => decide (|recErr r| < 1/20)) dummyRec (r0 :: rest) k hk
          hall (by simpa using hp)
        simp only [hfind]

/-- C2 witness: the amended theorem at the two-record log `c2wlog` (error `1`
then `0`), whose earliest sub-`0.05` error is at index `1`. -/
theorem c2_ttr_first_hit_or_last_witness :
    (⟨1, 1, 0, 0, false⟩ : EpisodeMetrics).time_to_recover =
      ((c2wlog.getD 1 dummyRec).t : ℚ) :=
  (c2_ttr_first_hit_or_last c2wlog ⟨1, 1, 0, 0, false⟩
    (by norm_num [metrics_from_log, c2wlog, recErr, listMax, listVar,
      List.find?])).2 1 (by norm_num [c2wlog])
    (by norm_num [c2wlog, recErr])
    (by norm_num [c2wlog, recErr, dummyRec])

/-- The episode loop emits at most `fuel` records. -/
lemma runLoop_length_le (cfg : SimCfg) (tN gN : ℕ → ℚ) :
    ∀ (fuel t : ℕ) (st : SimState),
      (runLoop cfg tN gN fuel t st).length ≤ fuel := by
  intro fuel
  induction fuel with
  | zero => intro t st; simp [runLoop]
  | succ fuel ih =>
      intro t st
      rw [runLoop]
      split
      · simp
      · simpa using ih (t + 1) _

/-- A record flagged `crashed` is the record on which the loop halted, so it
is the last one: the log length is exactly its index plus one. -/
lemma runLoop_crashed_is_last (cfg : SimCfg) (tN gN : ℕ → ℚ) :
    ∀ (fuel t : ℕ) (st : SimState) (k : ℕ),
      k < (runLoop cfg tN gN fuel t st).length →
      ((runLoop cfg tN gN fuel t st).getD k dummyRec).crashed = true →
      (runLoop cfg tN gN fuel t st).length = k + 1 := by
  intro fuel
  induction fuel with
  | zero => intro t st k hk _; simp [runLoop] at hk
  | succ fuel ih =>
      intro t st k hk hcr
      rw [runLoop] at hk hcr ⊢
      cases h : (simStep cfg tN gN t st).1.crashed with
      | true =>
          simp only [h, if_true] at hk hcr ⊢
          simp only [List.length_singleton] at hk ⊢
          omega
      | false =>
          simp only [h, Bool.false_eq_true, if_false] at hk hcr ⊢
          cases k with
          | zero => simp only [List.getD_cons_zero] at hcr; rw [hcr] at h; cases h
          | succ k =>
              simp only [List.getD_cons_succ] at hcr
              simp only [List.length_cons] at hk ⊢
              rw [ih (t + 1) _ k (by omega) hcr]

/-- C3 counterexample: an episode whose crash condition first holds at the
final step `t = T - 1` ends with `crash = true` and a log of length exactly
`T`, not strictly less than `T`; nothing is zeroed and no hold counter is
involved (with a 1×1 grid and a constant global draw of `400`, step `0` sets
the attitude to `8 > 6`, so the single record of this `T = 1` episode is
flagged crashed). -/
theorem c3_crash_with_full_length_log :
    (run tinyCfg zeroStream zeroStream (fun _ => 400)).length = tinyCfg.T ∧
      ((run tinyCfg zeroStream zeroStream (fun _ => 400)).getD 0
          dummyRec).crashed = true := by
  norm_num [run, runLoop, simStep, initSimState, CAState.init, step_ca,
    crash_condition, CAState.meanAttitude, CAState.meanStability,
    CAState.meanSpeed, gridMean, neighborMean, convTapSum, mooreOffsets,
    symmRefl, npClip, PID.step, FirstOrderActuator.step, Turbulence.step,
    tinyCfg, zeroStream, List.range_succ]

/-- C3 (amended): there is no consecutive-divergence counter and no zeroing
of later entries: on the first step `k` whose crash condition evaluates true,
the record (flagged `crashed`) is appended and the loop halts immediately, so
the log has length exactly `k + 1`, which is at most `T` (and equals `T` when
the crash happens on the final step). -/
theorem c3_crash_terminates_loop_immediately (cfg : SimCfg)
    (gN tN gloN : ℕ → ℚ) (k : ℕ)
    (hk : k < (run cfg gN tN gloN).length)
    (hcr : ((run cfg gN tN gloN).getD k dummyRec).crashed = true) :
    (run cfg gN tN gloN).length = k + 1 ∧
      (run cfg gN tN gloN).length ≤ cfg.T := by
  rw [run] at hk hcr ⊢
  exact ⟨runLoop_crashed_is_last cfg tN gloN cfg.T 0 _ k hk hcr,
    runLoop_length_le cfg tN gloN cfg.T 0 _⟩

/-- C3 witness: the amended theorem at the crashing `T = 1` episode, index
`0`. -/
theorem c3_crash_terminates_loop_immediately_witness :
    (run tinyCfg zeroStream zeroStream (fun _ => 400)).length = 0 + 1 ∧
      (run tinyCfg zeroStream zeroStream (fun _ => 400)).length ≤ tinyCfg.T :=
  c3_crash_terminates_loop_immediately tinyCfg zeroStream zeroStream
    (fun _ => 400) 0
    (by
      norm_num [run, runLoop, simStep, initSimState, CAState.init, step_ca,
        crash_condition, CAState.meanAttitude, CAState.meanStability,
        CAState.meanSpeed, gridMean, neighborMean, convTapSum, mooreOffsets,
        symmRefl, npClip, PID.step, FirstOrderActuator.step, Turbulence.step,
        tinyCfg, zeroStream, List.range_succ])
    (by
      norm_num [run, runLoop, simStep, initSimState, CAState.init, step_ca,
        crash_condition, CAState.meanAttitude, CAState.meanStability,
        CAState.meanSpeed, gridMean, neighborMean, convTapSum, mooreOffsets,
        symmRefl, npClip, PID.step, FirstOrderActuator.step, Turbulence.step,
        tinyCfg, zeroStream, List.range_succ])

/-- C10: in every log produced by `run`, only the final record can carry
`crashed = true`: as soon as a step's crash condition holds, its record is
appended and the loop breaks, so every record with a successor has
`crashed = false`. -/
theorem c10_crashed_false_before_final_record (cfg : SimCfg)
    (gN tN gloN : ℕ → ℚ) (i : ℕ)
    (hi : i + 1 < (run cfg gN tN gloN).length) :
    ((run cfg gN tN gloN).getD i dummyRec).crashed = false := by
  cases h : ((run cfg gN tN gloN).getD i dummyRec).crashed with
  | false => rfl
  | true =>
      rw [run] at hi h
      have := runLoop_crashed_is_last cfg tN gloN cfg.T 0 _ i (by omega) h
      omega

/-- C10 witness: the theorem at a crash-free `T = 2` episode (all-zero
streams), index `0`. -/
theorem c10_crashed_false_before_final_record_witness :
    ((run { tinyCfg with T := 2 } zeroStream zeroStream zeroStream).getD 0
        dummyRec).crashed = false :=
  c10_crashed_false_before_final_record { tinyCfg with T := 2 } zeroStream
    zeroStream zeroStream 0
    (by
      norm_num [run, runLoop, simStep, initSimState, CAState.init, step_ca,
        crash_condition, CAState.meanAttitude, CAState.meanStability,
        CAState.meanSpeed, gridMean, neighborMean, convTapSum, mooreOffsets,
        symmRefl, npClip, PID.step, FirstOrderActuator.step, Turbulence.step,
        tinyCfg, zeroStream, List.range_succ])

/-- C8 counterexample: the actuator step is not the three-stage pipeline
"rate limit, then lag, then final clamp" applied to the commanded input: the
source first saturates the command to `[-umax, umax]` before the rate limit
and lags toward that saturated command.  With `tau = 2`, `umax = 2`,
`rate = 0.5`, internal state `0` and command `3`, the source returns `5/4`
while the claimed pipeline returns `7/4`. -/
theorem c8_actuator_stage_order_counterexample :
    (FirstOrderActuator.step ⟨2, 2, 1/2, 0⟩ 3 1).1 ≠
        (specActuatorStep ⟨2, 2, 1/2, 0⟩ 3 1).1 ∧
      (FirstOrderActuator.step ⟨2, 2, 1/2, 0⟩ 3 1).1 = 5/4 ∧
      (specActuatorStep ⟨2, 2, 1/2, 0⟩ 3 1).1 = 7/4 := by
  norm_num [FirstOrderActuator.step, specActuatorStep, npClip]

/-- C8 (amended): the actuator step equals the spec's three-stage pipeline
applied to the command pre-saturated to `[-umax, umax]` (rate limiting of the
per-step change to `±rate·dt`, first-order lag toward the saturated command,
final saturation clamp), and whenever `0 ≤ umax` the returned value lies in
`[-umax, umax]`. -/
theorem c8_actuator_presaturated_pipeline (a : FirstOrderActuator)
    (u_cmd dt : ℚ) :
    FirstOrderActuator.step a u_cmd dt =
        specActuatorStep a (npClip u_cmd (-a.umax) a.umax) dt ∧
      (0 ≤ a.umax →
        -a.umax ≤ (FirstOrderActuator.step a u_cmd dt).1 ∧
          (FirstOrderActuator.step a u_cmd dt).1 ≤ a.umax) := by
  refine ⟨rfl, fun hmax => ?_⟩
  exact npClip_bounds _ _ _ (by linarith)

/-- C6: the stability field lies in `[0,1]` at all times: the initial seeding
`uniform(0.6, 0.9)` lands in `[0.6, 0.9] ⊆ [0,1]` (given that the abstract
uniform draws lie in `[0,1]`), and every `step_ca` update clips the new
stability values to `[0,1]`, for every state, control bias, turbulence level
and noise draw. -/
theorem c6_stability_field_in_unit_interval (h w : ℕ) (g : ℕ → ℚ)
    (hunif : ∀ k, 0 ≤ g (h * w + k) ∧ g (h * w + k) ≤ 1) :
    (∀ i j, 0 ≤ (CAState.init h w g).s i j ∧ (CAState.init h w g).s i j ≤ 1) ∧
      ∀ (st : CAState) (cb tb : ℚ) (gd : ℕ → ℚ) (i j : ℕ),
        0 ≤ (step_ca st cb tb gd).s i j ∧ (step_ca st cb tb gd).s i j ≤ 1 := by
  constructor
  · intro i j
    have hk := hunif (i * w + j)
    simp only [CAState.init]
    constructor <;> nlinarith [hk.1, hk.2]
  · intro st cb tb gd i j
    simp only [step_ca]
    exact npClip_bounds _ 0 1 (by norm_num)

/-- C6 witness: the theorem applied to a `1×1` grid seeded from the all-zero
stream, read at cell `(0,0)`. -/
theorem c6_stability_field_in_unit_interval_witness :
    0 ≤ (CAState.init 1 1 zeroStream).s 0 0 ∧
      (CAState.init 1 1 zeroStream).s 0 0 ≤ 1 :=
  (c6_stability_field_in_unit_interval 1 1 zeroStream
    (fun _ => by norm_num [zeroStream])).1 0 0

/-- The controller's anti-windup factor is unchanged by a step. -/
lemma pid_step_antiwindup (p : PID) (e dt : ℚ) :
    ((p.step e dt).2).antiwindup = p.antiwindup := by
  dsimp only [PID.step]
  split_ifs <;> rfl

/-- The anti-windup factor is unchanged by any number of iterated steps. -/
lemma pidIter_antiwindup (p : PID) (e : ℚ) (n : ℕ) :
    (pidIter p e n).antiwindup = p.antiwindup := by
  induction n with
  | zero => rfl
  | succ n ih => rw [pidIter, pid_step_antiwindup, ih]

/-- When a step saturates, the integral accumulator after the step is the
newly accumulated value scaled by the anti-windup factor. -/
lemma pid_step_saturated_integral (p : PID) (e : ℚ)
    (hsat : pidSaturatedAt p e) :
    ((p.step e 1).2).i = (p.i + e * 1) * p.antiwindup := by
  dsimp only [PID.step]
  split_ifs with h1 h2
  · rfl
  · rfl
  · exfalso
    rcases hsat with hs | hs
    · exact h1 hs
    · exact h2 hs

/-- C7: starting from a zero integral accumulator and driving the controller
with a constant error `e ≥ 0` while every step saturates, the accumulator
stays in `[0, e·(1/(1-antiwindup))]` for every number of steps: each saturated
step maps `i` to `(i + e)·antiwindup`, whose iterates stay below the fixed
point `antiwindup·e/(1-antiwindup)`. -/
theorem c7_antiwindup_bounds_integral (p : PID) (e : ℚ) (n : ℕ)
    (hi0 : p.i = 0) (haw0 : 0 ≤ p.antiwindup) (haw1 : p.antiwindup < 1)
    (he : 0 ≤ e)
    (hsat : ∀ k, k < n → pidSaturatedAt (pidIter p e k) e) :
    0 ≤ (pidIter p e n).i ∧
      (pidIter p e n).i ≤ e * (1 / (1 - p.antiwindup)) := by
  have hlt : 0 < 1 - p.antiwindup := by linarith
  have key : ∀ m, (∀ k, k < m → pidSaturatedAt (pidIter p e k) e) →
      0 ≤ (pidIter p e m).i ∧
        (pidIter p e m).i ≤ p.antiwindup * e / (1 - p.antiwindup) := by
    intro m
    induction m with
    | zero =>
        intro _
        refine ⟨by rw [pidIter, hi0], ?_⟩
        rw [pidIter, hi0]
        positivity
    | succ m ih =>
        intro hs
        obtain ⟨ih0, ih1⟩ := ih (fun k hk => hs k (Nat.lt_succ_of_lt hk))
        have hstep := pid_step_saturated_integral (pidIter p e m) e
          (hs m (Nat.lt_succ_self m))
        rw [pidIter, hstep, pidIter_antiwindup]
        constructor
        · have : 0 ≤ (pidIter p e m).i + e * 1 := by linarith
          exact mul_nonneg this haw0
        · have hsum : (pidIter p e m).i + e * 1 ≤ e / (1 - p.antiwindup) := by
            have heq : p.antiwindup * e / (1 - p.antiwindup) + e =
                e / (1 - p.antiwindup) := by
              field_simp
              ring
            linarith [heq]
          calc ((pidIter p e m).i + e * 1) * p.antiwindup
              ≤ e / (1 - p.antiwindup) * p.antiwindup :=
                mul_le_mul_of_nonneg_right hsum haw0
            _ ≤ p.antiwindup * e / (1 - p.antiwindup) := by
                rw [div_mul_eq_mul_div, mul_comm]
  obtain ⟨h0, h1⟩ := key n hsat
  refine ⟨h0, h1.trans ?_⟩
  rw [mul_one_div]
  have hnum : p.antiwindup * e ≤ e := by nlinarith
  exact (div_le_div_iff_of_pos_right hlt).mpr hnum

/-- C7 witness: the theorem at the concrete controller `pid7` (for which
`kp·e = 3 > umax = 2` saturates every step), error `3`, three steps. -/
theorem c7_antiwindup_bounds_integral_witness :
    0 ≤ (pidIter pid7 3 3).i ∧
      (pidIter pid7 3 3).i ≤ 3 * (1 / (1 - pid7.antiwindup)) :=
  c7_antiwindup_bounds_integral pid7 3 3 rfl (by norm_num [pid7])
    (by norm_num [pid7]) (by norm_num)
    (by
      intro k hk
      interval_cases k <;>
        norm_num [pidIter, pidSaturatedAt, PID.step, pid7])

/-- C8 witness: the amended theorem applied to the concrete actuator state
`tau = 2`, `umax = 2`, `rate = 0.5`, internal state `0`, command `3`. -/
theorem c8_actuator_presaturated_pipeline_witness :
    -(FirstOrderActuator.mk 2 2 (1/2) 0).umax ≤
        (FirstOrderActuator.step ⟨2, 2, 1/2, 0⟩ 3 1).1 ∧
      (FirstOrderActuator.step ⟨2, 2, 1/2, 0⟩ 3 1).1 ≤
        (FirstOrderActuator.mk 2 2 (1/2) 0).umax :=
  (c8_actuator_presaturated_pipeline ⟨2, 2, 1/2, 0⟩ 3 1).2 (by norm_num)

end CAMasters
